import Mathlib

/-!
Verification of the multi-agent SQL pipeline (`multi_agent.py`).

The source is a single Python module that turns a natural-language question
into an executed SQL query and a summary, via three text-generation calls
(validator, SQL generator, summarizer) and one database round-trip.

Strings are embedded as `List Char` and the Python string operations used by
the source (`in`, `split`, `strip`, `upper`, `startswith`, `join`) are given
executable models below.  Each external call (an agent `run` or the database
`execute`) is modelled as a function returning `Except` — `Except.error`
stands for the call raising an exception, `Except.ok` for a normal return
(per the source design notes, the loosely-typed `.content` probing is
normalized to plain response text at the capability boundary).
-/

/-- Strings of the embedding: Python `str` as a list of characters. -/
abbrev Str := List Char

/-- Characters stripped by Python `str.strip()` (ASCII whitespace). -/
def pyIsSpace (c : Char) : Bool :=
  c = ' ' || c = '\t' || c = '\n' || c = '\r' || c = '\x0b' || c = '\x0c'

/-- Python `s.strip()`: remove leading and trailing whitespace. -/
def pyStrip (s : Str) : Str :=
  ((s.dropWhile pyIsSpace).reverse.dropWhile pyIsSpace).reverse

/-- Python `s.upper()` (ASCII letters, which is all the source compares). -/
def pyUpper (s : Str) : Str := s.map Char.toUpper

/-- Index of the leftmost occurrence of `sep` in `s` (Python `s.find(sep)`). -/
def firstOccur (sep : Str) : Str → Option Nat
  | [] => if sep.isEmpty then some 0 else none
  | c :: rest =>
    if sep.isPrefixOf (c :: rest) then some 0
    else (firstOccur sep rest).map (· + 1)

/-- Python `sep in s`: substring containment. -/
def containsSub (sep s : Str) : Bool := (firstOccur sep s).isSome

/-- Text strictly before the first occurrence of `sep` (all of `s` if none). -/
def beforeFirst (sep s : Str) : Str :=
  match firstOccur sep s with
  | none => s
  | some i => s.take i

/-- Text strictly after the first occurrence of `sep` (empty if none). -/
def afterFirst (sep s : Str) : Str :=
  match firstOccur sep s with
  | none => []
  | some i => s.drop (i + sep.length)

/-- Fuelled worker for Python `s.split(sep)`: cut at each leftmost
occurrence of the separator, left to right, consuming it.  The fuel is a
structural-recursion device only; `pySplit` supplies enough fuel that it is
never exhausted (for a non-empty separator). -/
def splitFuel (sep : Str) : Nat → Str → List Str
  | 0, s => [s]
  | Nat.succ n, s =>
    match firstOccur sep s with
    | none => [s]
    | some i => s.take i :: splitFuel sep n (s.drop (i + sep.length))

/-- Python `s.split(sep)` for a non-empty separator. -/
def pySplit (sep s : Str) : List Str := splitFuel sep (s.length + 1) s

/-- Python `sep.join(parts)`. -/
def pyJoin (sep : Str) : List Str → Str
  | [] => []
  | [l] => l
  | l :: l2 :: ls => l ++ sep ++ pyJoin sep (l2 :: ls)

/-- The opening marker of an SQL-tagged fenced block. -/
def sqlTag : Str := "```sql".toList

/-- A plain code fence. -/
def fence : Str := "```".toList

/-- The line separator used by `response.split('\n')`. -/
def nl : Str := "\n".toList

/-- The six statement keywords recognized by the extractor. -/
def sqlKeywords : List Str :=
  ["SELECT".toList, "WITH".toList, "INSERT".toList,
   "UPDATE".toList, "DELETE".toList, "CREATE".toList]

/-- Source line 103 / 110: `s.upper().startswith(("SELECT", ...))`. -/
def startsSqlKw (s : Str) : Bool :=
  sqlKeywords.any (fun kw => kw.isPrefixOf (pyUpper s))

/-- Source line 114 stop test on an already-stripped line:
`not line or line.startswith(("Explanation", "This query"))`. -/
def stopLine (line : Str) : Bool :=
  line.isEmpty || "Explanation".toList.isPrefixOf line
    || "This query".toList.isPrefixOf line

/-- Source lines 107-116: the line-scanning loop.  `capturing` and `acc`
mirror the Python locals `capturing` and `sql_lines`; the `break` is the
branch that returns `acc` discarding the remaining lines. -/
def scan_lines_aux : List Str → Bool → List Str → List Str
  | [], _, acc => acc
  | l :: rest, capturing, acc =>
    let line := pyStrip l
    if !capturing && startsSqlKw line then
      scan_lines_aux rest true (acc ++ [line])
    else if capturing then
      if stopLine line then acc
      else scan_lines_aux rest capturing (acc ++ [line])
    else
      scan_lines_aux rest capturing acc

/-- Source lines 106-117: split into lines, run the scanning loop, and
return `'\n'.join(sql_lines) if sql_lines else None`. -/
def extract_scan (response : Str) : Option Str :=
  let sql_lines := scan_lines_aux (pySplit nl response) false []
  if sql_lines.isEmpty then none else some (pyJoin nl sql_lines)

/-- Source lines 97-120, `extract_sql_from_response`.  The list indexings
`[1]` and `[0]` are total here (`getD`); in the source they are guarded by
the corresponding `in` checks, and split always returns a non-empty list,
so the `try/except` wrapper can never fire and is not represented. -/
def extract_sql_from_response (response : Str) : Option Str :=
  if containsSub sqlTag response then
    some (pyStrip ((pySplit fence ((pySplit sqlTag response).getD 1 [])).getD 0 []))
  else if containsSub fence response then
    let sql := pyStrip ((pySplit fence response).getD 1 [])
    if startsSqlKw sql then some sql else extract_scan response
  else
    extract_scan response

/-- An external text-generation capability: one `run` call per stage,
returning response text or a capability-level failure (raised exception). -/
abbrev Agent := Str → Except Str Str

/-- A database row, a tuple of scalar values rendered as text. -/
abbrev Row := List Str

/-- The datastore boundary: one SQL statement in, rows or an error out. -/
abbrev Db := Str → Except Str (List Row)

/-- Source lines 131-136 return type: a row list or a message string. -/
abbrev QueryResult := List Row ⊕ Str

/-- Source lines 13-44: the schema description injected into prompts. -/
def schema_info : Str := "\nThe database consists of the following tables:\n\n1. **Airports**: \n    - airport_code (Primary Key, String)\n    - city (String)\n    - country (String)\n    - name (String)\n\n2. **Flights**: \n    - flight_id (Primary Key, Integer)\n    - airline (String)\n    - source (ForeignKey -> Airports.airport_code, String)\n    - destination (ForeignKey -> Airports.airport_code, String)\n    - departure_time (DateTime)\n    - arrival_time (DateTime)\n    - price (Float)\n    - seats_available (Integer)\n\n3. **Passengers**: \n    - passenger_id (Primary Key, Integer)\n    - name (String)\n    - email (String)\n    - phone (String)\n\n4. **Bookings**: \n    - booking_id (Primary Key, Integer)\n    - passenger_id (ForeignKey -> Passengers.passenger_id, Integer)\n    - flight_id (ForeignKey -> Flights.flight_id, Integer)\n    - booking_date (DateTime, default current time)\n    - status (String)\n".toList

/-- Source line 95 comparison target. -/
def validLiteral : Str := "VALID".toList

/-- Source lines 92-95, `validate_prompt`.  The function body has no
`try/except`: a failure of the agent call propagates to the caller, which
the `Except.error` branch records. -/
def validate_prompt (run : Agent) (prompt : Str) : Except Str Bool :=
  match run prompt with
  | Except.error e => Except.error e
  | Except.ok content => Except.ok (pyUpper (pyStrip content) == validLiteral)

/-- Python truthiness of the extractor result: `None` and `""` are falsy. -/
def optTruthy : Option Str → Bool
  | none => false
  | some s => !s.isEmpty

/-- Source line 129 message prefix. -/
def genFailMsg : Str := "SQL generation failed: ".toList

/-- Source lines 122-129, `generate_sql`: run the agent on the prompt plus
schema, extract SQL from the response; `return sql, response if not sql
else None` (note `not sql` is Python truthiness, so an empty extracted
string also yields the raw response as fallback).  The `except` branch
converts a failed call into `(None, message)`. -/
def generate_sql (run : Agent) (prompt : Str) : Option Str × Option Str :=
  match run (prompt ++ "\n\nSchema:\n".toList ++ schema_info) with
  | Except.error e => (none, some (genFailMsg ++ e))
  | Except.ok response =>
    let sql := extract_sql_from_response response
    (sql, if optTruthy sql then none else some response)

/-- Source line 134 marker. -/
def noRowsMsg : Str := "✅ Query ran but returned no rows.".toList

/-- Source line 136 message prefix. -/
def execErrMsg : Str := "❌ SQL execution error: ".toList

/-- Source lines 131-136, `execute_query`: fetch all rows; `return result
if result else marker` (list truthiness), and the `except` branch converts
a raised error into a description string. -/
def execute_query (db : Db) (sql : Str) : QueryResult :=
  match db sql with
  | Except.ok result =>
    if result.isEmpty then Sum.inr noRowsMsg else Sum.inl result
  | Except.error e => Sum.inr (execErrMsg ++ e)

/-- Textual serialization `str(results)` of the value passed to the
summarizer: a string result is itself; a row list is rendered as a
bracketed tuple list (Python scalar quoting elided — no claim inspects the
rendering of rows). -/
def strQueryResult : QueryResult → Str
  | Sum.inr s => s
  | Sum.inl rows =>
    "[".toList
      ++ pyJoin ", ".toList
           (rows.map fun row => "(".toList ++ pyJoin ", ".toList row ++ ")".toList)
      ++ "]".toList

/-- Source lines 142-146: the summarization prompt f-string. -/
def summary_prompt (prompt results_str : Str) : Str :=
  "User question: ".toList ++ prompt
    ++ "\n\nQuery result: ".toList ++ results_str
    ++ "\n\nBased on the schema provided earlier, summarize this result in a helpful way.".toList

/-- Source line 150 message prefix. -/
def sumFailMsg : Str := "❌ Summarization error: ".toList

/-- Source lines 138-150, `summarize_result`: build the summary prompt from
the original question and `str(results)`, run the agent, return the trimmed
response; the `except` branch converts a failed call into a string. -/
def summarize_result (run : Agent) (prompt : Str) (results : QueryResult) : Str :=
  match run (summary_prompt prompt (strQueryResult results)) with
  | Except.ok response => pyStrip response
  | Except.error e => sumFailMsg ++ e

/-- The stages of the pipeline that actually execute in one invocation. -/
inductive Stage where
  | validating
  | generating
  | executing
  | summarizing
deriving DecidableEq

/-- Terminal outcome of one invocation of the `__main__` pipeline. -/
inductive Outcome where
  | rejected
  | extractFailed (fallback : Option Str)
  | done (sql : Str) (results : QueryResult) (summary : Str)
deriving DecidableEq

/-- Source lines 153-168, the `__main__` pipeline, paired with the list of
stages that ran.  `if sql_query:` is Python truthiness, so both `None` and
an empty extracted string take the fallback branch.  A validation-call
failure propagates (there is no handler on that path), recorded as
`Except.error`. -/
def run_main (validator generator summarizer : Agent) (db : Db)
    (user_prompt : Str) : List Stage × Except Str Outcome :=
  match validate_prompt validator user_prompt with
  | Except.error e => ([Stage.validating], Except.error e)
  | Except.ok false => ([Stage.validating], Except.ok Outcome.rejected)
  | Except.ok true =>
    match generate_sql generator user_prompt with
    | (some sql, fb) =>
      if sql.isEmpty then
        ([Stage.validating, Stage.generating], Except.ok (Outcome.extractFailed fb))
      else
        let results := execute_query db sql
        ([Stage.validating, Stage.generating, Stage.executing, Stage.summarizing],
         Except.ok (Outcome.done sql results (summarize_result summarizer user_prompt results)))
    | (none, fb) =>
      ([Stage.validating, Stage.generating], Except.ok (Outcome.extractFailed fb))

/-- A concrete validator capability that accepts the prompt. -/
def wValidator : Agent := fun _ => Except.ok "VALID".toList

/-- A concrete generator capability returning a fenced SQL statement. -/
def wGenerator : Agent := fun _ => Except.ok "```sqlSELECT 1```".toList

/-- A concrete summarizer capability returning fixed text. -/
def wSummarizer : Agent := fun _ => Except.ok " done ".toList

/-- A concrete datastore that rejects every statement. -/
def wDb : Db := fun _ => Except.error "no such column".toList

/-! ### Lemmas about the string primitives -/

theorem firstOccur_bound {sep s : Str} {i : Nat} (h : firstOccur sep s = some i) :
    i + sep.length ≤ s.length := by
  induction s generalizing i with
  | nil =>
    unfold firstOccur at h
    by_cases hsep : sep.isEmpty
    · simp only [hsep, if_pos] at h
      cases h
      simp [List.isEmpty_iff.mp hsep]
    · simp [hsep] at h
  | cons c rest ih =>
    unfold firstOccur at h
    by_cases hp : sep.isPrefixOf (c :: rest)
    · simp only [hp, if_pos] at h
      cases h
      have := (List.isPrefixOf_iff_prefix.mp hp).length_le
      simpa using this
    · simp only [hp] at h
      cases hocc : firstOccur sep rest with
      | none => rw [hocc] at h; simp at h
      | some j =>
        rw [hocc, Option.map_some'] at h
        cases h
        have := ih hocc
        simp only [List.length_cons]
        omega

theorem firstOccur_isPrefix {sep s : Str} {i : Nat} (h : firstOccur sep s = some i) :
    sep.isPrefixOf (s.drop i) = true := by
  induction s generalizing i with
  | nil =>
    unfold firstOccur at h
    by_cases hsep : sep.isEmpty
    · simp only [hsep, if_pos] at h
      cases h
      simpa using List.isEmpty_iff.mp hsep
    · simp [hsep] at h
  | cons c rest ih =>
    unfold firstOccur at h
    by_cases hp : sep.isPrefixOf (c :: rest)
    · simp only [hp, if_pos] at h
      cases h
      simpa using hp
    · simp only [hp] at h
      cases hocc : firstOccur sep rest with
      | none => rw [hocc] at h; simp at h
      | some j =>
        rw [hocc, Option.map_some'] at h
        cases h
        simpa using ih hocc

theorem containsSub_of_prefix_drop {sep s : Str} {i : Nat}
    (h : sep.isPrefixOf (s.drop i) = true) : containsSub sep s = true := by
  induction s generalizing i with
  | nil =>
    simp only [List.drop_nil] at h
    have hsep : sep = [] := List.prefix_nil.mp (List.isPrefixOf_iff_prefix.mp h)
    simp [containsSub, firstOccur, hsep]
  | cons c rest ih =>
    match i with
    | 0 =>
      simp only [List.drop_zero] at h
      simp [containsSub, firstOccur, h]
    | Nat.succ j =>
      simp only [List.drop_succ_cons] at h
      have hrest := ih h
      simp only [containsSub, firstOccur] at hrest ⊢
      by_cases hp : sep.isPrefixOf (c :: rest)
      · simp [hp]
      · simpa [hp] using hrest

theorem containsSub_of_sqlTag {s : Str} (h : containsSub sqlTag s = true) :
    containsSub fence s = true := by
  simp only [containsSub, Option.isSome_iff_exists] at h
  obtain ⟨i, hi⟩ := h
  have hpre := firstOccur_isPrefix hi
  have hf : fence.isPrefixOf (s.drop i) = true := by
    rw [List.isPrefixOf_iff_prefix] at hpre ⊢
    exact List.IsPrefix.trans (by decide) hpre
  exact containsSub_of_prefix_drop hf

theorem splitFuel_congr {sep : Str} (hsep : sep ≠ []) :
    ∀ n m s, s.length < n → s.length < m → splitFuel sep n s = splitFuel sep m s := by
  intro n
  induction n with
  | zero => intro m s hn; omega
  | succ n ih =>
    intro m s hn hm
    match m with
    | 0 => omega
    | Nat.succ m =>
      simp only [splitFuel]
      cases hocc : firstOccur sep s with
      | none => rfl
      | some i =>
        have hbound := firstOccur_bound hocc
        have hslen : 1 ≤ sep.length := by
          cases sep with
          | nil => exact absurd rfl hsep
          | cons a l => simp
        have hd : (s.drop (i + sep.length)).length < n := by
          simp only [List.length_drop]; omega
        have hd2 : (s.drop (i + sep.length)).length < m := by
          simp only [List.length_drop]; omega
        show s.take i :: splitFuel sep n (s.drop (i + sep.length))
            = s.take i :: splitFuel sep m (s.drop (i + sep.length))
        rw [ih m (s.drop (i + sep.length)) hd hd2]

theorem pySplit_of_none {sep s : Str} (h : firstOccur sep s = none) :
    pySplit sep s = [s] := by
  show splitFuel sep (s.length + 1) s = [s]
  simp only [splitFuel, h]

theorem pySplit_of_some {sep s : Str} {i : Nat} (hsep : sep ≠ [])
    (h : firstOccur sep s = some i) :
    pySplit sep s = s.take i :: pySplit sep (s.drop (i + sep.length)) := by
  have hbound := firstOccur_bound h
  have hslen : 1 ≤ sep.length := by
    cases sep with
    | nil => exact absurd rfl hsep
    | cons a l => simp
  have h1 : pySplit sep s = s.take i :: splitFuel sep s.length (s.drop (i + sep.length)) := by
    show splitFuel sep (s.length + 1) s = _
    simp only [splitFuel, h]
  rw [h1]
  congr 1
  exact splitFuel_congr hsep s.length ((s.drop (i + sep.length)).length + 1)
    (s.drop (i + sep.length)) (by simp only [List.length_drop]; omega) (by omega)

theorem getD_zero_eq_headD (l : List Str) : l.getD 0 [] = l.headD [] := by
  cases l <;> rfl

theorem pySplit_headD {sep s : Str} (hsep : sep ≠ []) :
    (pySplit sep s).headD [] = beforeFirst sep s := by
  cases hocc : firstOccur sep s with
  | none => rw [pySplit_of_none hocc]; simp [beforeFirst, hocc]
  | some i => rw [pySplit_of_some hsep hocc]; simp [beforeFirst, hocc]

theorem pySplit_getD_one {sep s : Str} (hsep : sep ≠ [])
    (h : containsSub sep s = true) :
    (pySplit sep s).getD 1 [] = beforeFirst sep (afterFirst sep s) := by
  have hex : ∃ i, firstOccur sep s = some i := by
    simpa [containsSub, Option.isSome_iff_exists] using h
  obtain ⟨i, hi⟩ := hex
  rw [pySplit_of_some hsep hi]
  have hrest : afterFirst sep s = s.drop (i + sep.length) := by
    simp [afterFirst, hi]
  rw [hrest, List.getD_cons_succ, getD_zero_eq_headD, pySplit_headD hsep]

/-! ### Lemmas about the line-scanning loop -/

theorem scan_capturing (ls : List Str) (acc : List Str) :
    scan_lines_aux ls true acc
      = acc ++ (ls.map pyStrip).takeWhile (fun l => !stopLine l) := by
  induction ls generalizing acc with
  | nil => simp [scan_lines_aux]
  | cons l rest ih =>
    simp only [scan_lines_aux, List.map_cons, List.takeWhile_cons]
    cases hstop : stopLine (pyStrip l) with
    | true => simp [hstop]
    | false => simp [hstop, ih, List.append_assoc]

theorem scan_skip {l : Str} (rest : List Str) (acc : List Str)
    (h : startsSqlKw (pyStrip l) = false) :
    scan_lines_aux (l :: rest) false acc = scan_lines_aux rest false acc := by
  simp [scan_lines_aux, h]

theorem scan_no_keyword {ls : List Str} (acc : List Str)
    (h : ∀ l ∈ ls, startsSqlKw (pyStrip l) = false) :
    scan_lines_aux ls false acc = acc := by
  induction ls with
  | nil => rfl
  | cons l rest ih =>
    rw [scan_skip rest acc (h l (by simp))]
    exact ih fun x hx => h x (by simp [hx])

theorem scan_start {l : Str} (rest : List Str) (acc : List Str)
    (h : startsSqlKw (pyStrip l) = true) :
    scan_lines_aux (l :: rest) false acc
      = acc ++ pyStrip l :: (rest.map pyStrip).takeWhile (fun x => !stopLine x) := by
  simp only [scan_lines_aux, h, Bool.not_false, Bool.true_and, if_pos]
  rw [scan_capturing]
  simp

theorem scan_result_head (ls : List Str) :
    scan_lines_aux ls false [] = []
      ∨ ∃ l0 t, scan_lines_aux ls false [] = l0 :: t ∧ startsSqlKw l0 = true := by
  induction ls with
  | nil => exact Or.inl rfl
  | cons l rest ih =>
    cases hkw : startsSqlKw (pyStrip l) with
    | false => rw [scan_skip rest [] hkw]; exact ih
    | true =>
      rw [scan_start rest [] hkw]
      exact Or.inr ⟨pyStrip l, (rest.map pyStrip).takeWhile (fun x => !stopLine x),
        by simp, hkw⟩

theorem startsSqlKw_ne_nil {s : Str} (h : startsSqlKw s = true) : s ≠ [] := by
  intro hs
  subst hs
  exact absurd h (by decide)

theorem pyJoin_head_ne_nil {l0 : Str} (t : List Str) (h : l0 ≠ []) :
    pyJoin nl (l0 :: t) ≠ [] := by
  cases t with
  | nil => simpa [pyJoin] using h
  | cons l2 ls =>
    simp only [pyJoin]
    cases l0 with
    | nil => exact absurd rfl h
    | cons c cs => simp

/-! ### Joining the lines of a split recovers the original text -/

theorem splitFuel_ne_nil (sep : Str) (n : Nat) (s : Str) : splitFuel sep n s ≠ [] := by
  cases n with
  | zero => simp [splitFuel]
  | succ n =>
    simp only [splitFuel]
    cases firstOccur sep s <;> simp

theorem join_splitFuel_nl : ∀ n s, s.length < n → pyJoin nl (splitFuel nl n s) = s := by
  intro n
  induction n with
  | zero => intro s h; omega
  | succ n ih =>
    intro s hn
    simp only [splitFuel]
    cases hocc : firstOccur nl s with
    | none => simp [pyJoin]
    | some i =>
      have hpre := firstOccur_isPrefix hocc
      have hbound := firstOccur_bound hocc
      rw [show nl.length = 1 from rfl] at hbound
      have hdrop : s.drop i = '\n' :: s.drop (i + 1) := by
        obtain ⟨t, ht⟩ := List.isPrefixOf_iff_prefix.mp hpre
        have ht2 : s.drop i = '\n' :: t := by rw [← ht]; rfl
        have htt : t = s.drop (i + 1) := by
          have h3 := List.tail_drop s i
          rw [ht2] at h3
          simpa using h3
        rw [ht2, htt]
      have hlen : (s.drop (i + 1)).length < n := by
        simp only [List.length_drop]; omega
      have hne := splitFuel_ne_nil nl n (s.drop (i + 1))
      show pyJoin nl (s.take i :: splitFuel nl n (s.drop (i + nl.length))) = s
      rw [show i + nl.length = i + 1 from rfl]
      cases hL : splitFuel nl n (s.drop (i + 1)) with
      | nil => exact absurd hL hne
      | cons l2 ls =>
        have hIH := ih (s.drop (i + 1)) hlen
        rw [hL] at hIH
        simp only [pyJoin]
        rw [hIH]
        have hcons : nl ++ s.drop (i + 1) = s.drop i := by rw [hdrop]; rfl
        rw [List.append_assoc, hcons, List.take_append_drop]

theorem pyJoin_pySplit_nl (s : Str) : pyJoin nl (pySplit nl s) = s :=
  join_splitFuel_nl (s.length + 1) s (by omega)

/-! ### The three branches of the extractor -/

theorem extract_branch_sql {r : Str} (h : containsSub sqlTag r = true) :
    extract_sql_from_response r
      = some (pyStrip ((pySplit fence ((pySplit sqlTag r).getD 1 [])).getD 0 [])) := by
  simp [extract_sql_from_response, h]

theorem extract_branch_fence {r : Str} (h1 : containsSub sqlTag r = false)
    (h2 : containsSub fence r = true) :
    extract_sql_from_response r
      = (if startsSqlKw (pyStrip ((pySplit fence r).getD 1 []))
         then some (pyStrip ((pySplit fence r).getD 1 []))
         else extract_scan r) := by
  simp [extract_sql_from_response, h1, h2]

theorem extract_branch_plain {r : Str} (h2 : containsSub fence r = false) :
    extract_sql_from_response r = extract_scan r := by
  have h1 : containsSub sqlTag r = false := by
    cases hc : containsSub sqlTag r
    · rfl
    · rw [containsSub_of_sqlTag hc] at h2
      cases h2
  simp [extract_sql_from_response, h1, h2]

-- Concrete sanity checks of the embedding against hand-traced Python runs.
example : extract_sql_from_response "```sql\nSELECT 1;\n```".toList
    = some "SELECT 1;".toList := by decide
example : extract_sql_from_response "pre ```SELECT 2``` post".toList
    = some "SELECT 2".toList := by decide
example : extract_sql_from_response "hi\nselect *\nfrom t\n\nbye".toList
    = some "select *\nfrom t".toList := by decide
example : extract_sql_from_response "nothing here".toList = none := by decide
example : extract_sql_from_response "```sql```".toList = some [] := by decide
example : extract_sql_from_response "```sqlA````sqlB".toList
    = some "A`".toList := by decide

/-! ### Further helper lemmas shared by the claim theorems -/

theorem not_containsSub_firstOccur {sep s : Str} (h : containsSub sep s = false) :
    firstOccur sep s = none := by
  cases hocc : firstOccur sep s with
  | none => rfl
  | some j => simp [containsSub, hocc] at h

theorem scan_skip_all {ls1 : List Str} (rest : List Str) (acc : List Str)
    (h : ∀ l ∈ ls1, startsSqlKw (pyStrip l) = false) :
    scan_lines_aux (ls1 ++ rest) false acc = scan_lines_aux rest false acc := by
  induction ls1 with
  | nil => rfl
  | cons l t ih =>
    rw [List.cons_append, scan_skip _ _ (h l (by simp))]
    exact ih fun x hx => h x (by simp [hx])

theorem takeWhile_all {p : Str → Bool} {ls : List Str}
    (h : ∀ l ∈ ls, p l = true) : ls.takeWhile p = ls := by
  induction ls with
  | nil => rfl
  | cons a t ih =>
    rw [List.takeWhile_cons, if_pos (h a (by simp))]
    rw [ih fun x hx => h x (by simp [hx])]

/-- When the `sqlTag` marker occurs in the text and does not occur again
after its first occurrence, the first branch of the extractor returns the
text between the tag and the next fence (everything to the end when no
fence follows), trimmed. -/
theorem extract_sqlTag_once {r : Str} (h1 : containsSub sqlTag r = true)
    (h2 : containsSub sqlTag (afterFirst sqlTag r) = false) :
    extract_sql_from_response r
      = some (pyStrip (beforeFirst fence (afterFirst sqlTag r))) := by
  rw [extract_branch_sql h1]
  have hex : ∃ i, firstOccur sqlTag r = some i := by
    simpa [containsSub, Option.isSome_iff_exists] using h1
  obtain ⟨i, hi⟩ := hex
  have hrest : afterFirst sqlTag r = r.drop (i + sqlTag.length) := by
    simp [afterFirst, hi]
  have hnone : firstOccur sqlTag (r.drop (i + sqlTag.length)) = none := by
    apply not_containsSub_firstOccur
    rw [← hrest]
    exact h2
  have hgd1 : (pySplit sqlTag r).getD 1 [] = afterFirst sqlTag r := by
    rw [pySplit_of_some (by decide) hi, List.getD_cons_succ, getD_zero_eq_headD,
        pySplit_of_none hnone, hrest]
    rfl
  rw [hgd1, getD_zero_eq_headD, pySplit_headD (by decide)]

theorem extract_scan_none_or_nonempty (r : Str) :
    extract_scan r = none ∨ ∃ s, extract_scan r = some s ∧ s ≠ [] := by
  rcases scan_result_head (pySplit nl r) with h | ⟨l0, t, h, hkw⟩
  · left
    simp [extract_scan, h]
  · right
    refine ⟨pyJoin nl (l0 :: t), ?_, ?_⟩
    · simp [extract_scan, h]
    · exact pyJoin_head_ne_nil t (startsSqlKw_ne_nil hkw)

/-! ### The claims -/

/-- Claim C2 (amended): for raw text containing the `sqlTag` marker exactly
once, `extract` returns exactly the content strictly between the opening
tag and the next closing fence (the whole remainder when no fence follows),
trimmed of surrounding whitespace, regardless of prose before or after. -/
theorem extract_sqlfence_between (r : Str)
    (h1 : containsSub sqlTag r = true)
    (h2 : containsSub sqlTag (afterFirst sqlTag r) = false) :
    extract_sql_from_response r
      = some (pyStrip (beforeFirst fence (afterFirst sqlTag r))) :=
  extract_sqlTag_once h1 h2

/-- Witness for C2 at a concrete well-formed response with prose around
the SQL-tagged fence. -/
theorem extract_sqlfence_between_witness :
    extract_sql_from_response "x ```sql SELECT 1; ``` y".toList
      = some "SELECT 1;".toList :=
  (extract_sqlfence_between "x ```sql SELECT 1; ``` y".toList
    (by decide) (by decide)).trans (by decide)

/-- Counterexample to claim C2 as stated: in `"```sqlA````sqlB"` the next
closing fence after the opening tag delimits the content `"A"`, but the
code cuts at the second (overlapping) `sqlTag` occurrence first and
returns `"A`" — not the trimmed content between the tag and the next
closing fence. -/
theorem extract_sqlfence_cut_cex :
    extract_sql_from_response "```sqlA````sqlB".toList = some "A`".toList
    ∧ pyStrip (beforeFirst fence (afterFirst sqlTag "```sqlA````sqlB".toList))
        = "A".toList
    ∧ extract_sql_from_response "```sqlA````sqlB".toList
        ≠ some (pyStrip (beforeFirst fence (afterFirst sqlTag "```sqlA````sqlB".toList))) :=
  ⟨by decide, by decide, by decide⟩

/-- Claim C3: for raw text with no SQL-tagged fence whose first fenced
block is generic, if the block's trimmed content begins case-insensitively
with one of the six statement keywords then `extract` returns that
content, and otherwise `extract` falls through to the line-scanning stage
rather than returning absent immediately. -/
theorem extract_generic_fence_stage (r : Str)
    (h1 : containsSub sqlTag r = false) (h2 : containsSub fence r = true) :
    (startsSqlKw (pyStrip (beforeFirst fence (afterFirst fence r))) = true →
       extract_sql_from_response r
         = some (pyStrip (beforeFirst fence (afterFirst fence r))))
    ∧ (startsSqlKw (pyStrip (beforeFirst fence (afterFirst fence r))) = false →
       extract_sql_from_response r = extract_scan r) := by
  have hc : (pySplit fence r).getD 1 [] = beforeFirst fence (afterFirst fence r) :=
    pySplit_getD_one (by decide) h2
  rw [extract_branch_fence h1 h2, hc]
  constructor
  · intro hkw
    rw [hkw]
    simp
  · intro hkw
    rw [hkw]
    simp

/-- Witness for C3: a keyword-led generic fence is accepted; a non-keyword
generic fence falls through to line scanning. -/
theorem extract_generic_fence_stage_witness :
    extract_sql_from_response "a```SELECT 1```b".toList = some "SELECT 1".toList
    ∧ extract_sql_from_response "a```note``` ok\nSELECT 2\n".toList
        = extract_scan "a```note``` ok\nSELECT 2\n".toList := by
  constructor
  · exact ((extract_generic_fence_stage "a```SELECT 1```b".toList
      (by decide) (by decide)).1 (by decide)).trans (by decide)
  · exact (extract_generic_fence_stage "a```note``` ok\nSELECT 2\n".toList
      (by decide) (by decide)).2 (by decide)

/-- Claim C4: in the line-scanning stage, capture begins at the first line
whose trimmed upper-cased form starts with one of the six keywords;
subsequent trimmed lines are captured until the first blank line or a line
beginning with "Explanation" or "This query"; the captured lines are
joined with newline; with no keyword-led line the result is absent. -/
theorem extract_scan_stage_spec (r : Str) :
    ((∀ l ∈ pySplit nl r, startsSqlKw (pyStrip l) = false) → extract_scan r = none)
    ∧ (∀ ls1 lk ls2, pySplit nl r = ls1 ++ lk :: ls2 →
        (∀ l ∈ ls1, startsSqlKw (pyStrip l) = false) →
        startsSqlKw (pyStrip lk) = true →
        extract_scan r
          = some (pyJoin nl (pyStrip lk
              :: (ls2.map pyStrip).takeWhile (fun x => !stopLine x)))) := by
  constructor
  · intro h
    simp [extract_scan, scan_no_keyword [] h]
  · intro ls1 lk ls2 hsplit hno hkw
    have hmain : scan_lines_aux (pySplit nl r) false []
        = pyStrip lk :: (ls2.map pyStrip).takeWhile (fun x => !stopLine x) := by
      rw [hsplit, scan_skip_all _ _ hno, scan_start _ _ hkw]
      simp
    simp [extract_scan, hmain]

/-- Witness for C4: capture starts at the keyword line, skips prose before
it, stops at the blank line before the explanation; a keyword-free text
yields absent. -/
theorem extract_scan_stage_spec_witness :
    extract_scan "Sure:\nSELECT *\nFROM t\n\nExplanation: x".toList
      = some "SELECT *\nFROM t".toList
    ∧ extract_scan "no keywords here\nat all".toList = none := by
  constructor
  · have h := (extract_scan_stage_spec "Sure:\nSELECT *\nFROM t\n\nExplanation: x".toList).2
      ["Sure:".toList] "SELECT *".toList ["FROM t".toList, [], "Explanation: x".toList]
      (by decide) (by decide) (by decide)
    rw [h]
    decide
  · exact (extract_scan_stage_spec "no keywords here\nat all".toList).1 (by decide)

/-- Claim C5: `validate_prompt` yields true exactly when the validation
capability's response, trimmed of whitespace, equals `VALID`
case-insensitively, and false for every other response. -/
theorem validate_verdict_iff (run : Agent) (p content : Str)
    (h : run p = Except.ok content) :
    (validate_prompt run p = Except.ok true
       ↔ pyUpper (pyStrip content) = pyUpper validLiteral)
    ∧ (validate_prompt run p = Except.ok false
       ↔ pyUpper (pyStrip content) ≠ pyUpper validLiteral) := by
  have hv : validate_prompt run p
      = Except.ok (pyUpper (pyStrip content) == validLiteral) := by
    simp [validate_prompt, h]
  have hVL : pyUpper validLiteral = validLiteral := by decide
  rw [hv, hVL]
  cases hb : pyUpper (pyStrip content) == validLiteral with
  | true =>
    have heq : pyUpper (pyStrip content) = validLiteral := by simpa using hb
    constructor
    · simp [heq]
    · simp [heq]
  | false =>
    have hne : pyUpper (pyStrip content) ≠ validLiteral := by simpa using hb
    constructor
    · simp [hne]
    · simp [hne]

/-- Witness for C5 from the spec's own examples: `" valid \n"` validates,
`"maybe"` does not. -/
theorem validate_verdict_iff_witness :
    validate_prompt (fun _ => Except.ok " valid \n".toList) "q".toList = Except.ok true
    ∧ validate_prompt (fun _ => Except.ok "maybe".toList) "q".toList = Except.ok false := by
  constructor
  · exact (validate_verdict_iff (fun _ => Except.ok " valid \n".toList)
      "q".toList " valid \n".toList rfl).1.mpr (by decide)
  · exact (validate_verdict_iff (fun _ => Except.ok "maybe".toList)
      "q".toList "maybe".toList rfl).2.mpr (by decide)

/-- Claim C1 (amended): a failing external call in the SQL-generation or
summarization stage is caught at the stage boundary and converted into a
string returned as data, but a failing call in the validation stage is not
caught — `validate_prompt` has no handler and the failure propagates. -/
theorem stage_failure_conversion (e p : Str) (results : QueryResult) :
    validate_prompt (fun _ => Except.error e) p = Except.error e
    ∧ generate_sql (fun _ => Except.error e) p = (none, some (genFailMsg ++ e))
    ∧ summarize_result (fun _ => Except.error e) p results = sumFailMsg ++ e :=
  ⟨rfl, rfl, rfl⟩

/-- Counterexample to claim C1 as stated: a validation-stage external-call
failure is not converted into data — the stage's result is the propagated
failure, not a returned value. -/
theorem validation_failure_cex :
    validate_prompt (fun _ => Except.error "connection error".toList) "q".toList
        = Except.error "connection error".toList
    ∧ validate_prompt (fun _ => Except.error "connection error".toList) "q".toList
        ≠ Except.ok true
    ∧ validate_prompt (fun _ => Except.error "connection error".toList) "q".toList
        ≠ Except.ok false :=
  ⟨rfl, fun h => Except.noConfusion h, fun h => Except.noConfusion h⟩

/-- Claim C6: `execute_query` always returns exactly one of three disjoint
outcomes — a non-empty row list, the explicit zero-rows marker, or an
error-description string prefixed differently from the marker — and, being
a total function into `QueryResult`, never raises to its caller; it never
returns an ambiguous empty row list. -/
theorem execute_query_trichotomy (db : Db) (sql : Str) :
    ((∃ rows, rows ≠ [] ∧ execute_query db sql = Sum.inl rows)
      ∨ execute_query db sql = Sum.inr noRowsMsg
      ∨ (∃ e, db sql = Except.error e
           ∧ execute_query db sql = Sum.inr (execErrMsg ++ e)))
    ∧ (∀ rows, execute_query db sql = Sum.inl rows → rows ≠ [])
    ∧ (∀ e, noRowsMsg ≠ execErrMsg ++ e) := by
  refine ⟨?_, ?_, ?_⟩
  · cases hdb : db sql with
    | error e =>
      right; right
      exact ⟨e, rfl, by simp [execute_query, hdb]⟩
    | ok result =>
      cases hres : result.isEmpty with
      | true =>
        right; left
        simp [execute_query, hdb, hres]
      | false =>
        left
        exact ⟨result, by simpa using hres, by simp [execute_query, hdb, hres]⟩
  · intro rows h
    cases hdb : db sql with
    | error e => simp [execute_query, hdb] at h
    | ok result =>
      cases hres : result.isEmpty with
      | true => simp [execute_query, hdb, hres] at h
      | false =>
        simp only [execute_query, hdb, hres, Bool.false_eq_true, if_false,
          Sum.inl.injEq] at h
        rw [← h]
        simpa using hres
  · intro e h
    have h2 : ('✅' : Char) = '❌' := congrArg (fun l : Str => l.headD ' ') h
    exact absurd h2 (by decide)

/-- Witness for C6: a database returning one row yields a non-empty row
list, and the zero-rows marker differs from an error string. -/
theorem execute_query_trichotomy_witness :
    ([["r1".toList]] : List Row) ≠ []
    ∧ noRowsMsg ≠ execErrMsg ++ "x".toList := by
  constructor
  · exact (execute_query_trichotomy (fun _ => Except.ok [["r1".toList]])
      "SELECT 1".toList).2.1 [["r1".toList]] rfl
  · exact (execute_query_trichotomy (fun _ => Except.ok [])
      "SELECT 1".toList).2.2 "x".toList

/-- Claim C8 (amended): on any raw text without an SQL-tagged fence,
`extract` returns either absent or a non-empty string; only the SQL-tagged
fence branch can produce the empty string (when the fenced content trims
to nothing), and the pipeline treats that empty string as extraction
failure downstream. -/
theorem extract_nonempty_without_sqlTag (r : Str)
    (h1 : containsSub sqlTag r = false) :
    extract_sql_from_response r = none
    ∨ ∃ s, extract_sql_from_response r = some s ∧ s ≠ [] := by
  cases h2 : containsSub fence r with
  | false =>
    rw [extract_branch_plain h2]
    exact extract_scan_none_or_nonempty r
  | true =>
    rw [extract_branch_fence h1 h2]
    cases hkw : startsSqlKw (pyStrip ((pySplit fence r).getD 1 [])) with
    | false =>
      simpa using extract_scan_none_or_nonempty r
    | true =>
      right
      exact ⟨pyStrip ((pySplit fence r).getD 1 []), by simp, startsSqlKw_ne_nil hkw⟩

/-- Witness for C8 on texts without an SQL-tagged fence. -/
theorem extract_nonempty_without_sqlTag_witness :
    extract_sql_from_response "just words".toList = none
    ∨ ∃ s, extract_sql_from_response "just words".toList = some s ∧ s ≠ [] :=
  extract_nonempty_without_sqlTag "just words".toList (by decide)

/-- Counterexample to claim C8 as stated: an SQL-tagged fence with empty
content makes `extract` return the empty string — a present (non-absent)
empty result, which the claim ruled out. -/
theorem extract_empty_sqlfence_cex :
    extract_sql_from_response "```sql```".toList = some []
    ∧ extract_sql_from_response "```sql```".toList ≠ none :=
  ⟨by decide, by decide⟩

/-- Claim C9 (amended): `extract` is stable on a string (such as a prior
extraction output) that contains no fence marker, whose lines are each
individually trimmed and non-blank, whose first line begins with a
recognized statement keyword, and none of whose later lines begins with an
explanatory marker: on such input `extract` returns the string unchanged.
Outputs violating these conditions (e.g. a non-keyword-led fenced content)
are not re-extracted faithfully. -/
theorem extract_self_stable (s l0 : Str) (ls : List Str)
    (hfence : containsSub fence s = false)
    (hsplit : pySplit nl s = l0 :: ls)
    (hkw : startsSqlKw l0 = true)
    (htrim : ∀ l ∈ l0 :: ls, pyStrip l = l)
    (hstop : ∀ l ∈ ls, stopLine l = false) :
    extract_sql_from_response s = some s := by
  rw [extract_branch_plain hfence]
  have hl0 : pyStrip l0 = l0 := htrim l0 (by simp)
  have hmap : ls.map pyStrip = ls := by
    have h1 : ls.map pyStrip = ls.map id :=
      List.map_congr_left fun a ha => htrim a (by simp [ha])
    rw [h1, List.map_id]
  have htake : (ls.map pyStrip).takeWhile (fun x => !stopLine x) = ls := by
    rw [hmap]
    exact takeWhile_all fun l hl => by simp [hstop l hl]
  have hscan : scan_lines_aux (pySplit nl s) false [] = l0 :: ls := by
    rw [hsplit, scan_start _ _ (by rw [hl0]; exact hkw), hl0, htake]
    simp
  have hjoin : pyJoin nl (l0 :: ls) = s := by
    rw [← hsplit]
    exact pyJoin_pySplit_nl s
  simp [extract_scan, hscan, hjoin]

/-- Witness for C9 at a bare single-statement string. -/
theorem extract_self_stable_witness :
    extract_sql_from_response "SELECT 1".toList = some "SELECT 1".toList :=
  extract_self_stable "SELECT 1".toList "SELECT 1".toList []
    (by decide) (by decide) (by decide) (by decide) (by decide)

/-- Counterexample to claim C9 as stated: `extract` succeeds on
`"```sqlhello```"` returning the bare, fence-free string `"hello"`, but
re-running `extract` on that output yields absent, not the same string. -/
theorem extract_not_idempotent_cex :
    extract_sql_from_response "```sqlhello```".toList = some "hello".toList
    ∧ extract_sql_from_response "hello".toList = none :=
  ⟨by decide, by decide⟩

/-- Claim C10: extraction does not require a closing fence.  With an SQL
tag followed by no further fence, `extract` returns the whole trimmed
remainder after the tag; with a single unclosed generic fence whose
trimmed remainder begins with a statement keyword, it likewise returns
that trimmed remainder. -/
theorem extract_unclosed_fence (r : Str) :
    (containsSub sqlTag r = true →
       containsSub fence (afterFirst sqlTag r) = false →
       extract_sql_from_response r = some (pyStrip (afterFirst sqlTag r)))
    ∧ (containsSub sqlTag r = false → containsSub fence r = true →
       containsSub fence (afterFirst fence r) = false →
       startsSqlKw (pyStrip (afterFirst fence r)) = true →
       extract_sql_from_response r = some (pyStrip (afterFirst fence r))) := by
  constructor
  · intro h1 hf
    have h2 : containsSub sqlTag (afterFirst sqlTag r) = false := by
      cases hc : containsSub sqlTag (afterFirst sqlTag r)
      · rfl
      · rw [containsSub_of_sqlTag hc] at hf
        cases hf
    have hb : beforeFirst fence (afterFirst sqlTag r) = afterFirst sqlTag r := by
      simp [beforeFirst, not_containsSub_firstOccur hf]
    rw [extract_sqlTag_once h1 h2, hb]
  · intro h1 h2 hf hkw
    have hb : beforeFirst fence (afterFirst fence r) = afterFirst fence r := by
      simp [beforeFirst, not_containsSub_firstOccur hf]
    have hc : (pySplit fence r).getD 1 [] = beforeFirst fence (afterFirst fence r) :=
      pySplit_getD_one (by decide) h2
    rw [extract_branch_fence h1 h2, hc, hb, hkw]
    simp

/-- Witness for C10 at unclosed SQL-tagged and generic fences. -/
theorem extract_unclosed_fence_witness :
    extract_sql_from_response "```sql SELECT 1".toList = some "SELECT 1".toList
    ∧ extract_sql_from_response "``` SELECT 2".toList = some "SELECT 2".toList := by
  constructor
  · exact ((extract_unclosed_fence "```sql SELECT 1".toList).1
      (by decide) (by decide)).trans (by decide)
  · exact ((extract_unclosed_fence "``` SELECT 2".toList).2
      (by decide) (by decide) (by decide) (by decide)).trans (by decide)

/-- Claim C7: whenever SQL is recovered (so the executing stage runs), the
summarizing stage always runs next — the stage trace is exactly
validate, generate, execute, summarize — and the summary of a completed
run is always `summarize_result` applied to whatever `execute_query`
produced, including an error-description string forwarded as if it were a
query result. -/
theorem pipeline_summarize_after_execute (validator generator summarizer : Agent)
    (db : Db) (p : Str) :
    (Stage.executing ∈ (run_main validator generator summarizer db p).1 →
      (run_main validator generator summarizer db p).1
        = [Stage.validating, Stage.generating, Stage.executing, Stage.summarizing])
    ∧ (∀ sql results summary,
        (run_main validator generator summarizer db p).2
            = Except.ok (Outcome.done sql results summary) →
        summary = summarize_result summarizer p results) := by
  cases hv : validate_prompt validator p with
  | error e =>
    have hrm : run_main validator generator summarizer db p
        = ([Stage.validating], Except.error e) := by
      unfold run_main
      rw [hv]
    rw [hrm]
    constructor
    · intro hmem
      simp at hmem
    · intro sql results summary h
      simp at h
  | ok b =>
    cases b with
    | false =>
      have hrm : run_main validator generator summarizer db p
          = ([Stage.validating], Except.ok Outcome.rejected) := by
        unfold run_main
        rw [hv]
      rw [hrm]
      constructor
      · intro hmem
        simp at hmem
      · intro sql results summary h
        simp at h
    | true =>
      cases hg : generate_sql generator p with
      | mk sqlOpt fb =>
        cases sqlOpt with
        | none =>
          have hrm : run_main validator generator summarizer db p
              = ([Stage.validating, Stage.generating],
                 Except.ok (Outcome.extractFailed fb)) := by
            unfold run_main
            rw [hv, hg]
          rw [hrm]
          constructor
          · intro hmem
            simp at hmem
          · intro sql results summary h
            simp at h
        | some sql0 =>
          cases hempty : sql0.isEmpty with
          | true =>
            have hrm : run_main validator generator summarizer db p
                = ([Stage.validating, Stage.generating],
                   Except.ok (Outcome.extractFailed fb)) := by
              unfold run_main
              rw [hv, hg]
              simp [hempty]
            rw [hrm]
            constructor
            · intro hmem
              simp at hmem
            · intro sql results summary h
              simp at h
          | false =>
            have hrm : run_main validator generator summarizer db p
                = ([Stage.validating, Stage.generating, Stage.executing,
                    Stage.summarizing],
                   Except.ok (Outcome.done sql0 (execute_query db sql0)
                     (summarize_result summarizer p (execute_query db sql0)))) := by
              unfold run_main
              rw [hv, hg]
              simp [hempty]
            rw [hrm]
            constructor
            · intro hmem
              rfl
            · intro sql results summary h
              simp only [Except.ok.injEq, Outcome.done.injEq] at h
              obtain ⟨hs, hr, hsum⟩ := h
              rw [← hsum, hr]

/-- Witness for C7: a run whose database call fails still executes the
summarizing stage, and the final summary is the summarizer's output on the
forwarded error-description string. -/
theorem pipeline_summarize_after_execute_witness :
    (run_main wValidator wGenerator wSummarizer wDb "q".toList).1
        = [Stage.validating, Stage.generating, Stage.executing, Stage.summarizing]
    ∧ "done".toList
        = summarize_result wSummarizer "q".toList
            (Sum.inr "❌ SQL execution error: no such column".toList) := by
  constructor
  · exact (pipeline_summarize_after_execute wValidator wGenerator wSummarizer wDb
      "q".toList).1 (by decide)
  · exact (pipeline_summarize_after_execute wValidator wGenerator wSummarizer wDb
      "q".toList).2 "SELECT 1".toList
      (Sum.inr "❌ SQL execution error: no such column".toList) "done".toList rfl
